import Mathlib

/-!
Shallow embedding of `notification-hook-codex.py` (the Codex notification
hook) and verification of the frozen claims about it.

Modelling conventions:
* A parsed JSON hook event becomes `HookInput`; absent (or JSON-null) fields
  are `none`.  Python's `dict.get(k, d)` becomes `Option.getD`.
* Python string truthiness (`if s:`) becomes `s ≠ ""` on the `Option.getD ""`
  value, matching `None`/empty both being falsy.
* The external collaborators (`get_project_context`, `send_notification`)
  are oracles passed to the driver; an `Except.error` value models the
  collaborator raising an exception.  The driver's observable behaviour is a
  trace of external calls (`ExtCall`).
* `str_lower` (per-character `Char.toLower`) models Python `str.lower()`.
-/

/-- Parsed JSON hook event; every field of the source that is read via
`dict.get` is an `Option`. -/
structure HookInput where
  type : Option String := none
  session_id : Option String := none
  cwd : Option String := none
  approval_type : Option String := none
  tool_name : Option String := none
  reason : Option String := none
  command : Option String := none
  changes : Option (List String) := none
  idle_duration_seconds : Option Int := none
  message : Option String := none
  hook_event_name : Option String := none
deriving Repr, DecidableEq

/-- Project context returned by the external `get_project_context`. -/
structure ProjectContext where
  git_status : String
deriving Repr, DecidableEq

/-- Source constant `HOOK_NAME`. -/
def HOOK_NAME : String := "notification-hook"

/-- Source constant `ENABLE_NOTIFICATIONS`. -/
def ENABLE_NOTIFICATIONS : Bool := true

/-- Source constant `NOTIFICATION_AUDIO_FILE`. -/
def NOTIFICATION_AUDIO_FILE : String := "toasty.mp3"

/-- Substring occurrence on character lists (Python's `pat in s`). -/
def char_list_has_sub (pat : List Char) : List Char → Bool
  | [] => List.isPrefixOf pat []
  | c :: rest => List.isPrefixOf pat (c :: rest) || char_list_has_sub pat rest

/-- `contains_sub s pat` models Python's `pat in s` on strings. -/
def contains_sub (s pat : String) : Bool :=
  char_list_has_sub pat.data s.data

/-- Per-character lowercasing, the model of Python's `str.lower()`. -/
def str_lower (s : String) : String :=
  String.mk (s.data.map Char.toLower)

/-- Boolean suffix test on strings, via character lists. -/
def str_ends_with (s suf : String) : Bool :=
  List.isSuffixOf suf.data s.data

/-- Source `analyze_message_content`: keyword classification of the generic
path, returning `(priority, title, tags)`. -/
def analyze_message_content (PROJECT_TITLE PROJECT_TAG : String)
    (message : String) (_hook_event_name : String) : String × String × List String :=
  let message_lower := str_lower message
  let project_title := PROJECT_TITLE
  let project_tag := PROJECT_TAG
  if contains_sub message_lower "permission" || contains_sub message_lower "approval" then
    ("high", project_title ++ ": Permission Required", ["warning", "key", project_tag])
  else if contains_sub message_lower "error" || contains_sub message_lower "failed" then
    ("high", project_title ++ ": Error Detected", ["red_circle", "warning", project_tag])
  else if contains_sub message_lower "waiting" || contains_sub message_lower "idle" then
    ("low", project_title ++ ": Waiting for Input", ["clock", "zzz", project_tag])
  else if contains_sub message_lower "blocked" || contains_sub message_lower "hook" then
    ("default", project_title ++ ": Hook Alert", ["stop_sign", "warning", project_tag])
  else if contains_sub message_lower "completed" || contains_sub message_lower "finished" then
    ("default", project_title ++ ": Task Completed", ["white_check_mark", "gear", project_tag])
  else
    ("default", project_title ++ ": Notification", ["bell", "info", project_tag])

/-- Source `format_notification_message`: appends the parenthesized event
name (when non-empty) and the git-status suffix (when not clean). -/
def format_notification_message (original_message : String)
    (hook_event_name : String) (project_info : ProjectContext) : String :=
  let event_context := if hook_event_name ≠ "" then " (" ++ hook_event_name ++ ")" else ""
  let status := if project_info.git_status ≠ "clean" then " • " ++ project_info.git_status else ""
  original_message ++ event_context ++ status

/-- The `message_lines` list built by `build_tool_permission_notification`
before it is joined with newlines. -/
def permission_message_lines (hook_data : HookInput) : List String :=
  let approval_type := hook_data.approval_type.getD "unknown"
  let tool_name := hook_data.tool_name.getD "unknown"
  let base := ["Claude needs permission to use " ++ tool_name]
  let with_detail :=
    if approval_type = "exec" then
      match hook_data.command with
      | some command => if command ≠ "" then base ++ ["Command: " ++ command] else base
      | none => base
    else if approval_type = "patch" then
      let changes := hook_data.changes.getD []
      if changes = [] then base
      else
        let preview := String.intercalate ", " (changes.take 3)
        let with_files := base ++ ["Files: " ++ preview]
        let remaining : Int := (changes.length : Int) - 3
        if remaining > 0 then with_files ++ ["(+" ++ toString remaining ++ " more)"]
        else with_files
    else base
  match hook_data.reason with
  | some r => if r ≠ "" then with_detail ++ ["Reason: " ++ r] else with_detail
  | none => with_detail

/-- Source `build_tool_permission_notification`, returning
`(title, message, priority, tags)`. -/
def build_tool_permission_notification (PROJECT_TITLE PROJECT_TAG : String)
    (hook_data : HookInput) : String × String × String × List String :=
  (PROJECT_TITLE ++ ": Permission Required",
   String.intercalate "\n" (permission_message_lines hook_data),
   "high",
   ["warning", "key", PROJECT_TAG])

/-- Source `build_idle_timeout_notification`, returning
`(title, message, priority, tags)`. -/
def build_idle_timeout_notification (PROJECT_TITLE PROJECT_TAG : String)
    (hook_data : HookInput) : String × String × String × List String :=
  let duration := hook_data.idle_duration_seconds.getD 60
  (PROJECT_TITLE ++ ": Session Idle",
   "Claude session idle for " ++ toString duration ++ "s",
   "default",
   ["clock", PROJECT_TAG])

/-- The event-name fallback of the generic path:
`hook_input.get("hook_event_name", hook_type or "notification")`. -/
def resolve_event_name (hook_input : HookInput) (hook_type : String) : String :=
  hook_input.hook_event_name.getD (if hook_type ≠ "" then hook_type else "notification")

/-- The generic path's raw text: the `message` field, or the synthesized
`"Codex event: <hook_event_name>"` when that is empty or absent. -/
def generic_raw_message (hook_input : HookInput) (hook_event_name : String) : String :=
  let raw := hook_input.message.getD ""
  if raw = "" then "Codex event: " ++ hook_event_name else raw

/-- The type dispatch of `main`, returning
`(title, body, priority, tags, hook_event_name)`. -/
def choose_presentation (PROJECT_TITLE PROJECT_TAG : String)
    (hook_type : String) (hook_input : HookInput) :
    String × String × String × List String × String :=
  if hook_type = "tool-permission-request" then
    let p := build_tool_permission_notification PROJECT_TITLE PROJECT_TAG hook_input
    (p.1, p.2.1, p.2.2.1, p.2.2.2, hook_type)
  else if hook_type = "prompt-idle-timeout" then
    let p := build_idle_timeout_notification PROJECT_TITLE PROJECT_TAG hook_input
    (p.1, p.2.1, p.2.2.1, p.2.2.2, hook_type)
  else
    let hook_event_name := resolve_event_name hook_input hook_type
    let raw_message := generic_raw_message hook_input hook_event_name
    let a := analyze_message_content PROJECT_TITLE PROJECT_TAG raw_message hook_event_name
    (a.2.1, raw_message, a.1, a.2.2, hook_event_name)

/-- One observable call to an external collaborator. -/
inductive ExtCall where
  | logCall (msg : String)
  | sendCall (message title priority : String) (tags : List String) (session_id : String)
  | audioCall (file : String)
deriving Repr, DecidableEq

/-- Outcome of running the driver: either a normal return with the trace of
external calls, or an uncaught exception escaping the entry point (the top
level `except` makes the latter unreachable). -/
inductive MainOutcome where
  | normal (trace : List ExtCall)
  | uncaught (e : String) (trace : List ExtCall)
deriving Repr, DecidableEq

/-- The body of `main`'s `try` block.  `stdin` is the result of
`json.loads(sys.stdin.read())` (`error` = a raised `JSONDecodeError`),
`get_project_context` and `send_result` are the external oracles (`error` =
the collaborator raising).  Returns the trace of external calls made so far
together with the pending exception, if one was raised. -/
def run_cycle (PROJECT_TITLE PROJECT_TAG : String)
    (stdin : Except String HookInput)
    (get_project_context : Except String ProjectContext)
    (send_result : Except String Bool) : List ExtCall × Option String :=
  if !ENABLE_NOTIFICATIONS then ([], none)
  else
    match stdin with
    | .error e => ([], some e)
    | .ok hook_input =>
      let hook_type := hook_input.type.getD ""
      let session_id := hook_input.session_id.getD "unknown"
      let t1 := [ExtCall.logCall ("Processing Notification hook for session " ++ session_id),
                 ExtCall.logCall ("Event: " ++ hook_type)]
      match get_project_context with
      | .error e => (t1, some e)
      | .ok project_info =>
        let pres := choose_presentation PROJECT_TITLE PROJECT_TAG hook_type hook_input
        let title := pres.1
        let notification_body := pres.2.1
        let priority := pres.2.2.1
        let tags := pres.2.2.2.1
        let hook_event_name := pres.2.2.2.2
        let formatted_message :=
          format_notification_message notification_body hook_event_name project_info
        let t2 := t1 ++ [ExtCall.logCall ("Message: " ++ notification_body),
                         ExtCall.sendCall formatted_message title priority tags session_id]
        match send_result with
        | .error e => (t2, some e)
        | .ok true => (t2 ++ [ExtCall.logCall "Notification sent successfully",
                              ExtCall.audioCall NOTIFICATION_AUDIO_FILE], none)
        | .ok false => (t2 ++ [ExtCall.logCall "Failed to send notification"], none)

/-- The log lines of the top-level `except` handler (the exception type name
and traceback text are runtime metadata, represented by the message). -/
def error_log_trace (e : String) : List ExtCall :=
  [ExtCall.logCall ("✗ Hook error: " ++ e),
   ExtCall.logCall ("✗ Exception details: " ++ e),
   ExtCall.logCall "✗ Full traceback:"]

/-- Source `main`: the `try` body with the top-level catch-all handler.
(Named `main_hook` because Lean reserves `main` for executable entry
points.) -/
def main_hook (PROJECT_TITLE PROJECT_TAG : String)
    (stdin : Except String HookInput)
    (get_project_context : Except String ProjectContext)
    (send_result : Except String Bool) : MainOutcome :=
  match run_cycle PROJECT_TITLE PROJECT_TAG stdin get_project_context send_result with
  | (tr, none) => .normal tr
  | (tr, some e) => .normal (tr ++ error_log_trace e)

/-- The trace of external calls a run of `main` performs. -/
def main_trace (PROJECT_TITLE PROJECT_TAG : String)
    (stdin : Except String HookInput)
    (get_project_context : Except String ProjectContext)
    (send_result : Except String Bool) : List ExtCall :=
  match main_hook PROJECT_TITLE PROJECT_TAG stdin get_project_context send_result with
  | .normal tr => tr
  | .uncaught _ tr => tr

/-- Messages passed to `send_notification` in a trace. -/
def sent_messages (tr : List ExtCall) : List String :=
  tr.filterMap fun c =>
    match c with
    | .sendCall m _ _ _ _ => some m
    | _ => none

/-- Audio files passed to `play_audio` in a trace. -/
def audio_files (tr : List ExtCall) : List String :=
  tr.filterMap fun c =>
    match c with
    | .audioCall f => some f
    | _ => none

/-- Whether a trace contains a `send_notification` call. -/
def trace_has_send (tr : List ExtCall) : Bool :=
  tr.any fun c =>
    match c with
    | .sendCall _ _ _ _ _ => true
    | _ => false

/-- Whether the delivery oracle reported success (returned `True` without
raising). -/
def send_reported_success : Except String Bool → Bool
  | .ok true => true
  | _ => false

/-- Spec-side restatement of the generic classification table (spec section
4.1 step 3): the five keyword checks in the spec's order, first match wins,
written independently of `analyze_message_content` for comparison. -/
def spec_classify (PROJECT_TITLE PROJECT_TAG : String)
    (message : String) : String × String × List String :=
  let m := str_lower message
  if contains_sub m "permission" || contains_sub m "approval" then
    ("high", PROJECT_TITLE ++ ": Permission Required", ["warning", "key", PROJECT_TAG])
  else if contains_sub m "error" || contains_sub m "failed" then
    ("high", PROJECT_TITLE ++ ": Error Detected", ["red_circle", "warning", PROJECT_TAG])
  else if contains_sub m "waiting" || contains_sub m "idle" then
    ("low", PROJECT_TITLE ++ ": Waiting for Input", ["clock", "zzz", PROJECT_TAG])
  else if contains_sub m "blocked" || contains_sub m "hook" then
    ("default", PROJECT_TITLE ++ ": Hook Alert", ["stop_sign", "warning", PROJECT_TAG])
  else if contains_sub m "completed" || contains_sub m "finished" then
    ("default", PROJECT_TITLE ++ ": Task Completed", ["white_check_mark", "gear", PROJECT_TAG])
  else
    ("default", PROJECT_TITLE ++ ": Notification", ["bell", "info", PROJECT_TAG])

/-! ## Helper lemmas -/

/-- A list is a Boolean prefix of itself followed by anything. -/
theorem list_isPrefixOf_append (l r : List Char) : List.isPrefixOf l (l ++ r) = true := by
  induction l with
  | nil => simp
  | cons a l ih => simp [List.isPrefixOf, ih]

/-- Appending a string makes the result end with it. -/
theorem str_ends_with_append (a b : String) : str_ends_with (a ++ b) b = true := by
  cases a with
  | mk la =>
    cases b with
    | mk lb =>
      show List.isPrefixOf lb.reverse (la ++ lb).reverse = true
      rw [List.reverse_append]
      exact list_isPrefixOf_append _ _

/-- Appending the empty string is the identity. -/
theorem string_append_empty (s : String) : s ++ "" = s := by
  cases s with
  | mk l =>
    show String.mk (l ++ []) = String.mk l
    rw [List.append_nil]

/-- The integer subtraction the source prints agrees with natural
subtraction once at least 3 entries exist. -/
theorem int_natSub_toString (n : Nat) (h : 3 ≤ n) :
    toString ((n : Int) - 3) = toString (n - 3) := by
  have e : ((n : Int) - 3) = ((n - 3 : Nat) : Int) := by omega
  rw [e]
  rfl

/-- Every branch of `analyze_message_content` yields some priority, a title
of the form `PT ++ ": " ++ suffix`, and a three-element tag list ending in
the project tag. -/
theorem analyze_message_content_shape (PT PTAG message hook_event_name : String) :
    ∃ pri suf a b, analyze_message_content PT PTAG message hook_event_name
      = (pri, PT ++ (": " ++ suf), [a, b, PTAG]) := by
  unfold analyze_message_content
  dsimp only
  split
  · exact ⟨"high", "Permission Required", "warning", "key", rfl⟩
  split
  · exact ⟨"high", "Error Detected", "red_circle", "warning", rfl⟩
  split
  · exact ⟨"low", "Waiting for Input", "clock", "zzz", rfl⟩
  split
  · exact ⟨"default", "Hook Alert", "stop_sign", "warning", rfl⟩
  split
  · exact ⟨"default", "Task Completed", "white_check_mark", "gear", rfl⟩
  · exact ⟨"default", "Notification", "bell", "info", rfl⟩

/-! ## Claim theorems -/

/-- Claim C1, counterexample: an event of type `tool-permission-request`
with clean git status is delivered with the parenthesized event-name suffix
appended — the message is NOT delivered unchanged by the enrichment step,
refuting the claim that enrichment applies only on the generic path. -/
theorem C1_counterexample :
    sent_messages (main_trace "T" "g"
        (Except.ok { type := some "tool-permission-request" })
        (Except.ok ⟨"clean"⟩) (Except.ok true))
      = ["Claude needs permission to use unknown (tool-permission-request)"]
    ∧ (build_tool_permission_notification "T" "g"
        { type := some "tool-permission-request" }).2.1
      = "Claude needs permission to use unknown"
    ∧ ("Claude needs permission to use unknown (tool-permission-request)"
        ≠ "Claude needs permission to use unknown") := by decide

/-- Claim C1, amended: message enrichment (`format_notification_message`)
is applied on every path.  The messages delivered for
`tool-permission-request` and `prompt-idle-timeout` events are the built
messages passed through the enrichment step, which appends the
parenthesized event name (the event type) and, when git status is not
clean, the `" • <git_status>"` suffix. -/
theorem C1_enrichment_applied_on_all_paths (PT PTAG : String) (ev : HookInput)
    (ctx : ProjectContext) (send_result : Except String Bool) :
    (ev.type = some "tool-permission-request" →
      sent_messages (main_trace PT PTAG (Except.ok ev) (Except.ok ctx) send_result)
        = [format_notification_message
            (build_tool_permission_notification PT PTAG ev).2.1
            "tool-permission-request" ctx])
    ∧ (ev.type = some "prompt-idle-timeout" →
      sent_messages (main_trace PT PTAG (Except.ok ev) (Except.ok ctx) send_result)
        = [format_notification_message
            (build_idle_timeout_notification PT PTAG ev).2.1
            "prompt-idle-timeout" ctx])
    ∧ (∀ body name, name ≠ "" →
        format_notification_message body name ctx
          = body ++ " (" ++ name ++ ")"
            ++ (if ctx.git_status ≠ "clean" then " • " ++ ctx.git_status else "")) := by
  refine ⟨?_, ?_, ?_⟩
  · intro h
    rcases send_result with e | b
    · simp [main_trace, main_hook, run_cycle, choose_presentation, h,
            sent_messages, ENABLE_NOTIFICATIONS, error_log_trace]
    · cases b <;>
        simp [main_trace, main_hook, run_cycle, choose_presentation, h,
              sent_messages, ENABLE_NOTIFICATIONS, error_log_trace]
  · intro h
    rcases send_result with e | b
    · simp [main_trace, main_hook, run_cycle, choose_presentation, h,
            sent_messages, ENABLE_NOTIFICATIONS, error_log_trace]
    · cases b <;>
        simp [main_trace, main_hook, run_cycle, choose_presentation, h,
              sent_messages, ENABLE_NOTIFICATIONS, error_log_trace]
  · intro body name hn
    simp [format_notification_message, hn, String.append_assoc]

/-- Claim C1, witness: the amended theorem instantiated at a concrete
permission-request event with dirty git status. -/
theorem C1_enrichment_applied_on_all_paths_witness :
    sent_messages (main_trace "T" "g"
        (Except.ok { type := some "tool-permission-request" })
        (Except.ok ⟨"dirty"⟩) (Except.ok true))
      = [format_notification_message
          (build_tool_permission_notification "T" "g"
            { type := some "tool-permission-request" }).2.1
          "tool-permission-request" ⟨"dirty"⟩] :=
  (C1_enrichment_applied_on_all_paths "T" "g"
    { type := some "tool-permission-request" } ⟨"dirty"⟩ (Except.ok true)).1 rfl

/-- Claim C2: for a `tool-permission-request` event with
`approval_type == "patch"` and more than 3 changes, the built message lines
contain the `"Files: "` line joining exactly the first 3 entries with
`", "`, and the `"(+<N-3> more)"` line; the built message is these lines
joined by newlines. -/
theorem C2_patch_changes_listing (PT PTAG : String) (ev : HookInput) (cs : List String)
    (_htype : ev.type = some "tool-permission-request")
    (hpat : ev.approval_type = some "patch") (hch : ev.changes = some cs)
    (hlen : 3 < cs.length) :
    ("Files: " ++ String.intercalate ", " (cs.take 3)) ∈ permission_message_lines ev
    ∧ ("(+" ++ toString (cs.length - 3) ++ " more)") ∈ permission_message_lines ev
    ∧ (build_tool_permission_notification PT PTAG ev).2.1
        = String.intercalate "\n" (permission_message_lines ev) := by
  have hne : cs ≠ [] := by
    intro hn
    rw [hn] at hlen
    simp at hlen
  have hpos : ((cs.length : Int) - 3) > 0 := by omega
  have hts : toString ((cs.length : Int) - 3) = toString (cs.length - 3) :=
    int_natSub_toString _ (by omega)
  refine ⟨?_, ?_, rfl⟩
  · unfold permission_message_lines
    rw [hpat, hch]
    rcases hr : ev.reason with _ | r
    · simp [hne, hpos, hr]
    · by_cases hre : r = "" <;> simp [hne, hpos, hr, hre]
  · unfold permission_message_lines
    rw [hpat, hch, ← hts]
    rcases hr : ev.reason with _ | r
    · simp [hne, hpos, hr]
    · by_cases hre : r = "" <;> simp [hne, hpos, hr, hre]

/-- Claim C2, witness: a patch request with 5 changes lists the first 3 and
reports `(+2 more)`. -/
theorem C2_patch_changes_listing_witness :
    ("Files: a, b, c" ∈ permission_message_lines
        { type := some "tool-permission-request", approval_type := some "patch",
          changes := some ["a", "b", "c", "d", "e"] })
    ∧ ("(+2 more)" ∈ permission_message_lines
        { type := some "tool-permission-request", approval_type := some "patch",
          changes := some ["a", "b", "c", "d", "e"] }) :=
  ⟨(C2_patch_changes_listing "T" "g"
      { type := some "tool-permission-request", approval_type := some "patch",
        changes := some ["a", "b", "c", "d", "e"] }
      ["a", "b", "c", "d", "e"] rfl rfl rfl (by decide)).1,
   (C2_patch_changes_listing "T" "g"
      { type := some "tool-permission-request", approval_type := some "patch",
        changes := some ["a", "b", "c", "d", "e"] }
      ["a", "b", "c", "d", "e"] rfl rfl rfl (by decide)).2.1⟩

/-- Claim C3, counterexample: with `approval_type == "exec"` and a `command`
field PRESENT but equal to the empty string, the built message contains no
`"Command: "` line at all (Python's `if command:` treats the empty string
as falsy), refuting the claim for events whose command field is present but
empty. -/
theorem C3_counterexample :
    permission_message_lines
        { type := some "tool-permission-request", approval_type := some "exec",
          command := some "" }
      = ["Claude needs permission to use unknown"]
    ∧ ¬ ("Command: "
          ∈ permission_message_lines
              { type := some "tool-permission-request", approval_type := some "exec",
                command := some "" }) := by decide

/-- Claim C3, amended: for a `tool-permission-request` event with
`approval_type == "exec"` and a NON-EMPTY `command` field, the built
message lines contain the line `"Command: <command>"`; the built message is
the lines joined by newlines. -/
theorem C3_exec_command_line (PT PTAG : String) (ev : HookInput) (c : String)
    (_htype : ev.type = some "tool-permission-request")
    (hexec : ev.approval_type = some "exec") (hc : ev.command = some c)
    (hne : c ≠ "") :
    ("Command: " ++ c) ∈ permission_message_lines ev
    ∧ (build_tool_permission_notification PT PTAG ev).2.1
        = String.intercalate "\n" (permission_message_lines ev) := by
  refine ⟨?_, rfl⟩
  unfold permission_message_lines
  rw [hexec, hc]
  rcases hr : ev.reason with _ | r
  · simp [hne, hr]
  · by_cases hre : r = "" <;> simp [hne, hr, hre]

/-- Claim C3, witness: a concrete exec request with command `ls -la`. -/
theorem C3_exec_command_line_witness :
    "Command: ls -la" ∈ permission_message_lines
      { type := some "tool-permission-request", approval_type := some "exec",
        command := some "ls -la" } :=
  (C3_exec_command_line "T" "g"
    { type := some "tool-permission-request", approval_type := some "exec",
      command := some "ls -la" } "ls -la" rfl rfl rfl (by decide)).1

/-- Claim C4: a generic-path message containing `"permission"`
case-insensitively yields priority `"high"` and a title ending in
`"Permission Required"`, regardless of any other keyword in the message;
moreover `analyze_message_content` coincides with the spec's five-check
precedence order (`spec_classify`), so the first matching check wins. -/
theorem C4_permission_precedence (PT PTAG message hook_event_name : String) :
    (contains_sub (str_lower message) "permission" = true →
      (analyze_message_content PT PTAG message hook_event_name).1 = "high"
      ∧ str_ends_with (analyze_message_content PT PTAG message hook_event_name).2.1
          "Permission Required" = true)
    ∧ analyze_message_content PT PTAG message hook_event_name
        = spec_classify PT PTAG message := by
  constructor
  · intro h
    constructor
    · simp [analyze_message_content, h]
    · simp [analyze_message_content, h]
      have e2 : (": " ++ "Permission Required" : String) = ": Permission Required" := by
        decide
      have e : PT ++ ": Permission Required" = (PT ++ ": ") ++ "Permission Required" := by
        rw [String.append_assoc, e2]
      rw [e]
      exact str_ends_with_append _ _
  · rfl

/-- Claim C4, witness: a message containing both `"Permission"` and
`"completed"` is classified as high-priority permission. -/
theorem C4_permission_precedence_witness :
    (analyze_message_content "T" "g" "Permission check completed" "n").1 = "high"
    ∧ str_ends_with (analyze_message_content "T" "g" "Permission check completed" "n").2.1
        "Permission Required" = true :=
  (C4_permission_precedence "T" "g" "Permission check completed" "n").1 (by decide)

/-- Claim C5: the idle-timeout builder produces title
`"<ProjectTitle>: Session Idle"`, message
`"Claude session idle for <d>s"` with `d` the `idle_duration_seconds`
field defaulting to 60 when absent, and priority `"default"`. -/
theorem C5_idle_timeout_presentation (PT PTAG : String) (ev : HookInput) :
    (build_idle_timeout_notification PT PTAG ev).1 = PT ++ ": Session Idle"
    ∧ (build_idle_timeout_notification PT PTAG ev).2.1
        = "Claude session idle for " ++ toString (ev.idle_duration_seconds.getD 60) ++ "s"
    ∧ (ev.idle_duration_seconds = none →
        (build_idle_timeout_notification PT PTAG ev).2.1 = "Claude session idle for 60s")
    ∧ (build_idle_timeout_notification PT PTAG ev).2.2.1 = "default" := by
  refine ⟨rfl, rfl, ?_, rfl⟩
  intro h
  simp only [build_idle_timeout_notification, h]
  decide

/-- Claim C5, witness: an event with no fields defaults to 60 seconds. -/
theorem C5_idle_timeout_presentation_witness :
    (build_idle_timeout_notification "T" "g" {}).2.1 = "Claude session idle for 60s" :=
  (C5_idle_timeout_presentation "T" "g" {}).2.2.1 rfl

/-- Claim C6, counterexample: with `git_status == "clean"` the formatted
message can still end in `" • clean"` when the original message does (here
with an explicitly empty `hook_event_name`, so no event context is added),
refuting the "exactly when" direction of the claim for the delivered
string. -/
theorem C6_counterexample :
    sent_messages (main_trace "T" "g"
        (Except.ok { hook_event_name := some "", message := some "x • clean" })
        (Except.ok ⟨"clean"⟩) (Except.ok true))
      = ["x • clean"]
    ∧ str_ends_with "x • clean" (" • " ++ "clean") = true := by decide

/-- Claim C6, amended: when `git_status` is not `"clean"` the formatted
message ends with `" • <git_status>"`; when it is `"clean"` the enrichment
appends no suffix — the formatted message is exactly the original message
plus the event-name context (any trailing `" • clean"` can only come from
the original message itself). -/
theorem C6_git_status_suffix (orig name : String) (ctx : ProjectContext) :
    (ctx.git_status ≠ "clean" →
      str_ends_with (format_notification_message orig name ctx)
        (" • " ++ ctx.git_status) = true)
    ∧ (ctx.git_status = "clean" →
      format_notification_message orig name ctx
        = orig ++ (if name ≠ "" then " (" ++ name ++ ")" else "")) := by
  constructor
  · intro h
    simp only [format_notification_message]
    rw [if_pos h]
    exact str_ends_with_append _ _
  · intro h
    have hst : ¬ (ctx.git_status ≠ "clean") := by simp [h]
    simp only [format_notification_message]
    rw [if_neg hst, string_append_empty]

/-- Claim C6, witness: a dirty git status makes the formatted message end
with the status suffix. -/
theorem C6_git_status_suffix_witness :
    str_ends_with (format_notification_message "m" "ev" ⟨"dirty"⟩)
      (" • " ++ "dirty") = true :=
  (C6_git_status_suffix "m" "ev" ⟨"dirty"⟩).1 (by decide)

/-- Claim C7: on the generic path, an absent `message` field makes the raw
text `"Codex event: <name>"` with the name resolved by the fallback chain
(explicit `hook_event_name` field, else the non-empty `type`, else
`"notification"`); and the spec's concrete example input yields title
`"<ProjectTitle>: Task Completed"`, formatted message
`"Task completed successfully (notification)"` and priority `"default"`. -/
theorem C7_generic_fallback_and_example (PT PTAG : String) (ev : HookInput)
    (h1 : ev.type.getD "" ≠ "tool-permission-request")
    (h2 : ev.type.getD "" ≠ "prompt-idle-timeout")
    (h3 : ev.message = none) :
    (choose_presentation PT PTAG (ev.type.getD "") ev).2.1
      = "Codex event: " ++ resolve_event_name ev (ev.type.getD "")
    ∧ resolve_event_name ev (ev.type.getD "")
        = (match ev.hook_event_name with
           | some s => s
           | none => if ev.type.getD "" ≠ "" then ev.type.getD "" else "notification")
    ∧ main_hook PT PTAG
        (Except.ok { message := some "Task completed successfully", cwd := some "/tmp" })
        (Except.ok ⟨"clean"⟩) (Except.ok true)
      = MainOutcome.normal
          [ExtCall.logCall "Processing Notification hook for session unknown",
           ExtCall.logCall "Event: ",
           ExtCall.logCall "Message: Task completed successfully",
           ExtCall.sendCall "Task completed successfully (notification)"
             (PT ++ ": Task Completed") "default"
             ["white_check_mark", "gear", PTAG] "unknown",
           ExtCall.logCall "Notification sent successfully",
           ExtCall.audioCall "toasty.mp3"] := by
  refine ⟨?_, ?_, rfl⟩
  · simp [choose_presentation, h1, h2, generic_raw_message, h3]
  · rcases hh : ev.hook_event_name with _ | s <;> simp [resolve_event_name, hh]

/-- Claim C7, witness: a message-less event of unrecognized type yields the
synthesized body with the type as event name. -/
theorem C7_generic_fallback_and_example_witness :
    (choose_presentation "T" "g" "custom-event" { type := some "custom-event" }).2.1
      = "Codex event: custom-event" :=
  (C7_generic_fallback_and_example "T" "g" { type := some "custom-event" }
    (by decide) (by decide) rfl).1

/-- Claim C8: the driver never propagates an error: for every parse
outcome (including malformed input), project-context outcome and delivery
outcome, `main_hook` returns a normal `MainOutcome`; on a parse error it
returns normally after emitting the error-handler log lines. -/
theorem C8_exceptions_swallowed (PT PTAG : String)
    (stdin : Except String HookInput) (ctx : Except String ProjectContext)
    (send_result : Except String Bool) (e : String) :
    (∃ tr, main_hook PT PTAG stdin ctx send_result = MainOutcome.normal tr)
    ∧ main_hook PT PTAG (Except.error e) ctx send_result
        = MainOutcome.normal (error_log_trace e) := by
  constructor
  · rcases stdin with e1 | ev
    · exact ⟨_, rfl⟩
    · rcases ctx with e2 | c
      · exact ⟨_, rfl⟩
      · rcases send_result with e3 | b
        · exact ⟨_, rfl⟩
        · cases b
          · exact ⟨_, rfl⟩
          · exact ⟨_, rfl⟩
  · rfl

/-- Claim C9: in every run, audio is played exactly when a
`send_notification` call happened and reported success, and the only audio
file ever passed is the fixed `NOTIFICATION_AUDIO_FILE`, which is
`"toasty.mp3"`. -/
theorem C9_audio_on_send_success (PT PTAG : String)
    (stdin : Except String HookInput) (ctx : Except String ProjectContext)
    (send_result : Except String Bool) :
    audio_files (main_trace PT PTAG stdin ctx send_result)
      = (if trace_has_send (main_trace PT PTAG stdin ctx send_result)
            && send_reported_success send_result
         then [NOTIFICATION_AUDIO_FILE] else [])
    ∧ NOTIFICATION_AUDIO_FILE = "toasty.mp3" := by
  refine ⟨?_, rfl⟩
  rcases stdin with e1 | ev
  · rfl
  · rcases ctx with e2 | c
    · rfl
    · rcases send_result with e3 | b
      · rfl
      · cases b
        · rfl
        · rfl

/-- Claim C10: in all six branches, `analyze_message_content` returns a tag
list of exactly 3 elements whose last element is the project tag, and a
title beginning with `"<ProjectTitle>: "`. -/
theorem C10_analyze_invariants (PT PTAG message hook_event_name : String) :
    (analyze_message_content PT PTAG message hook_event_name).2.2.length = 3
    ∧ (analyze_message_content PT PTAG message hook_event_name).2.2.getLast? = some PTAG
    ∧ ∃ rest, (analyze_message_content PT PTAG message hook_event_name).2.1
        = PT ++ (": " ++ rest) := by
  obtain ⟨p, s, a, b, h⟩ := analyze_message_content_shape PT PTAG message hook_event_name
  rw [h]
  exact ⟨rfl, rfl, s, rfl⟩
